import Mathlib

/-!
Shallow embedding of the lucky-draw core of the team-operations system
(Rust sources `src/db/lucky_draw_service.rs`, `src/db/mod.rs`,
`backend/scheduler.rs`).

The SQLite database is modelled as an explicit state value:
`shopitems` rows as an association list keyed by item id, `luckydrawlog`
rows as a list of `Draw` records, and the read-only `user_lp_summary`
view as a list of `(qq, total_lp)` pairs.  The view groups by the user
table's primary key `qq`, so its identities are pairwise distinct; the
theorems that need this carry it as a `Nodup` hypothesis.

Each Rust function becomes a pure state transformer.  `sqlx` failures
that the code surfaces (`RowNotFound`, `Decode`) become a `DbError`
value; a transaction that errors out is rolled back by `sqlx`, which the
embedding renders by returning `Except.error` without a successor state,
so no partial write of an aborted transaction is observable.

`draw_lucky_winner` shuffles the eligible list with a `StdRng` seeded
from the clock and the draw id; the embedding abstracts that random
permutation as an explicit `shuffle` function argument, and theorems
that depend on it assume only that it permutes its input.  Timestamps
produced by `Local::now()` are likewise passed in as explicit string
arguments.  SQLite compares `TEXT` values by byte order, which on UTF-8
agrees with code-point order; `strLe` implements that order.
-/

/-- Code-point lexicographic order on char lists (SQLite TEXT/memcmp
order restricted to UTF-8 strings). -/
def charListLe : List Char → List Char → Bool
  | [], _ => true
  | _ :: _, [] => false
  | a :: as, b :: bs =>
    if a.val < b.val then true
    else if b.val < a.val then false
    else charListLe as bs

/-- SQLite `<=` on TEXT columns. -/
def strLe (a b : String) : Bool := charListLe a.data b.data

/-- Insertion of an element into a list sorted by `le` (helper for the
SQL `ORDER BY` clauses). -/
def insertLe (le : α → α → Bool) (x : α) : List α → List α
  | [] => [x]
  | y :: ys => if le x y then x :: y :: ys else y :: insertLe le x ys

/-- Stable sort by `le`, modelling SQL `ORDER BY`. -/
def sortLe (le : α → α → Bool) : List α → List α
  | [] => []
  | x :: xs => insertLe le x (sortLe le xs)

/-- One `shopitems` row: the columns the lucky-draw core touches
(`count INTEGER NOT NULL`, `seller VARCHAR NOT NULL`). -/
structure ShopItem where
  count : Int
  seller : String
  deriving Repr, DecidableEq

/-- One `luckydrawlog` row. -/
structure Draw where
  id : Int
  create_time : String
  create_qq : String
  item_id : Option Int
  fitting : Option String
  num : Int
  min_lp_require : Int
  plan_time : String
  status : Int
  winner_qq : Option String
  description : Option String
  deriving Repr, DecidableEq

/-- The database state seen by the lucky-draw core. -/
structure DbState where
  items : List (Int × ShopItem)
  draws : List Draw
  lpSummary : List (String × Int)
  nextDrawId : Int
  deriving Repr, DecidableEq

/-- The `sqlx::Error` values the lucky-draw code produces:
`RowNotFound` and string-typed `Decode` errors. -/
inductive DbError where
  | rowNotFound
  | decode (msg : String)
  deriving Repr, DecidableEq

/-- `SELECT ... FROM luckydrawlog WHERE id = ?` (first matching row). -/
def findDraw (st : DbState) (draw_id : Int) : Option Draw :=
  st.draws.find? (fun d => d.id == draw_id)

/-- `SELECT count, seller FROM shopitems WHERE id = ?`. -/
def lookupItem (st : DbState) (item_id : Int) : Option ShopItem :=
  st.items.lookup item_id

/-- `UPDATE shopitems SET ... WHERE id = ?`: rewrite every row with the
given id. -/
def updateItemRows (items : List (Int × ShopItem)) (item_id : Int)
    (f : ShopItem → ShopItem) : List (Int × ShopItem) :=
  items.map (fun p => if p.1 == item_id then (p.1, f p.2) else p)

/-- `UPDATE luckydrawlog SET ... WHERE id = ?`: rewrite every row with
the given id. -/
def updateDrawRows (draws : List Draw) (draw_id : Int) (f : Draw → Draw) :
    List Draw :=
  draws.map (fun d => if d.id == draw_id then f d else d)

/-- `UPDATE shopitems SET count = count - ? WHERE id = ? AND count >= ?`:
the rows rewritten are exactly those satisfying both conditions. -/
def condDecrementItems (items : List (Int × ShopItem)) (item_id num : Int) :
    List (Int × ShopItem) :=
  items.map (fun p =>
    if p.1 == item_id && num ≤ p.2.count then (p.1, { p.2 with count := p.2.count - num })
    else p)

/-- Rows affected by the conditional decrement above
(`update_result.rows_affected()`). -/
def condDecrementAffected (items : List (Int × ShopItem)) (item_id num : Int) : Nat :=
  (items.filter (fun p => p.1 == item_id && num ≤ p.2.count)).length

/-- Error message `format!("库存不足: 需要 {}, 实际 {}", num, stock)`. -/
def insufficientStockMsg (num stock : Int) : String :=
  "库存不足: 需要 " ++ toString num ++ ", 实际 " ++ toString stock

/-- The `luckydrawlog` row inserted by `create_draw`
(`VALUES (?, ?, ?, ?, ?, ?, ?, 0, ?)`, id from AUTOINCREMENT). -/
def mkDraw (st : DbState) (create_time create_qq : String) (item_id : Option Int)
    (fitting : Option String) (num min_lp_require : Int) (plan_time : String)
    (description : Option String) : Draw :=
  { id := st.nextDrawId, create_time := create_time, create_qq := create_qq,
    item_id := item_id, fitting := fitting, num := num,
    min_lp_require := min_lp_require, plan_time := plan_time, status := 0,
    winner_qq := none, description := description }

/-- `LuckyDrawService::create_draw`.  With a linked item it reads stock
and seller, rejects on missing item (`RowNotFound`), insufficient stock
or foreign ownership (`Decode`), then inside one transaction performs
the conditional stock decrement and inserts the `Pending` draw row;
`rows_affected == 0` aborts the transaction.  `create_time` stands for
the `Local::now()` timestamp. -/
def create_draw (st : DbState) (create_qq : String) (item_id : Option Int)
    (fitting : Option String) (num min_lp_require : Int) (plan_time : String)
    (description : Option String) (create_time : String) :
    Except DbError (DbState × Int) :=
  match item_id with
  | some iid =>
    match lookupItem st iid with
    | none => .error .rowNotFound
    | some item =>
      if item.count < num then
        .error (.decode (insufficientStockMsg num item.count))
      else if item.seller ≠ create_qq then
        .error (.decode "只能使用自己的商品创建抽奖")
      else
        if condDecrementAffected st.items iid num == 0 then
          .error (.decode "库存不足或商品不存在")
        else
          let d := mkDraw st create_time create_qq (some iid) fitting num
            min_lp_require plan_time description
          .ok ({ st with items := condDecrementItems st.items iid num,
                         draws := st.draws ++ [d],
                         nextDrawId := st.nextDrawId + 1 }, st.nextDrawId)
  | none =>
    let d := mkDraw st create_time create_qq none fitting num
      min_lp_require plan_time description
    .ok ({ st with draws := st.draws ++ [d],
                   nextDrawId := st.nextDrawId + 1 }, st.nextDrawId)

/-- `SELECT qq FROM user_lp_summary WHERE total_lp >= ?`. -/
def eligible_users (st : DbState) (min_lp : Int) : List String :=
  (st.lpSummary.filter (fun p => min_lp ≤ p.2)).map Prod.fst

/-- Rust `num as usize` on a 64-bit target. -/
def intAsUsize (n : Int) : Nat := (n % (2 : Int) ^ 64).toNat

/-- Rust `Vec::<String>::join(", ")`. -/
def winnersJoin : List String → String
  | [] => ""
  | [w] => w
  | w :: ws => w ++ ", " ++ winnersJoin ws

/-- `draw_lucky_winner` (`src/db/mod.rs`): load the draw (`None` when
absent or not `Pending`), collect the eligible users, pick
`min(num, eligible.len())` winners from a seeded random shuffle, store
them comma-joined with `status = 1`.  The seeded `StdRng` shuffle is
abstracted as the `shuffle` argument. -/
def draw_lucky_winner (shuffle : List String → List String) (st : DbState)
    (draw_id : Int) : Option (List String) × DbState :=
  match findDraw st draw_id with
  | none => (none, st)
  | some d =>
    if d.status ≠ 0 then (none, st)
    else
      let eligible := eligible_users st d.min_lp_require
      if eligible.isEmpty then (none, st)
      else
        let winner_count := min (intAsUsize d.num) eligible.length
        let winners := (shuffle eligible).take winner_count
        if winners.isEmpty then (none, st)
        else
          let upd : Draw → Draw :=
            fun e => { e with status := 1, winner_qq := some (winnersJoin winners) }
          (some winners, { st with draws := updateDrawRows st.draws draw_id upd })

/-- `LuckyDrawService::execute_draw` just forwards to
`draw_lucky_winner`. -/
def execute_draw (shuffle : List String → List String) (st : DbState)
    (draw_id : Int) : Option (List String) × DbState :=
  draw_lucky_winner shuffle st draw_id

/-- `LuckyDrawService::set_winner`:
`UPDATE luckydrawlog SET status = 1, winner_qq = ? WHERE id = ?`,
always `Ok(())`. -/
def set_winner (st : DbState) (draw_id : Int) (winner_qq : String) :
    Except DbError DbState :=
  .ok { st with draws := (updateDrawRows st.draws draw_id
      (fun e => { e with status := 1, winner_qq := some winner_qq })) }

/-- `LuckyDrawService::get_pending_draws`:
`WHERE status = 0 ORDER BY plan_time ASC`. -/
def get_pending_draws (st : DbState) : List Draw :=
  sortLe (fun a b => strLe a.plan_time b.plan_time)
    (st.draws.filter (fun d => d.status == 0))

/-- `LuckyDrawService::get_user_wins`:
`WHERE winner_qq = ? ORDER BY create_time DESC`.  SQL equality against a
`NULL` `winner_qq` never matches, which `Option` equality mirrors. -/
def get_user_wins (st : DbState) (user_qq : String) : List Draw :=
  sortLe (fun a b => strLe b.create_time a.create_time)
    (st.draws.filter (fun d => d.winner_qq == some user_qq))

/-- `LuckyDrawService::delete_draw`: in one transaction, read the draw
(`RowNotFound` when absent), restore the item stock when the draw is
still `Pending` and linked to an item, then delete the row. -/
def delete_draw (st : DbState) (draw_id : Int) : Except DbError DbState :=
  match findDraw st draw_id with
  | none => .error .rowNotFound
  | some d =>
    let items' :=
      if d.status == 0 && d.item_id.isSome then
        match d.item_id with
        | some iid => updateItemRows st.items iid
            (fun it => { it with count := it.count + d.num })
        | none => st.items
      else st.items
    .ok { st with items := items',
                  draws := st.draws.filter (fun e => !(e.id == draw_id)) }

/-- One iteration of the scheduler's per-draw loop
(`backend/scheduler.rs` lines 42-63): call `draw_lucky_winner`; on
`Ok(None)` mark the draw `status = 2` so it is not re-checked. -/
def scheduler_handle_draw (shuffle : List String → List String) (st : DbState)
    (draw_id : Int) : DbState :=
  match draw_lucky_winner shuffle st draw_id with
  | (some _, st') => st'
  | (none, st') =>
    { st' with draws := (updateDrawRows st'.draws draw_id
        (fun e => { e with status := 2 })) }

/-- The scheduler's due query:
`SELECT id FROM luckydrawlog WHERE status = 0 AND plan_time <= ?
ORDER BY plan_time ASC`. -/
def due_pending_ids (st : DbState) (current_time : String) : List Int :=
  (sortLe (fun a b => strLe a.plan_time b.plan_time)
    (st.draws.filter (fun d => d.status == 0 && strLe d.plan_time current_time))).map
    (fun d => d.id)

/-- `check_and_execute_pending_lotteries`: one scheduler tick, handling
every due pending draw in order. -/
def check_and_execute_pending_lotteries (shuffle : List String → List String)
    (st : DbState) (current_time : String) : DbState :=
  (due_pending_ids st current_time).foldl
    (fun s i => scheduler_handle_draw shuffle s i) st

/-- Decidable equality for `Except`, so results of the fallible
operations can be evaluated on concrete states. -/
instance [DecidableEq ε] [DecidableEq α] : DecidableEq (Except ε α) := fun a b =>
  match a, b with
  | .ok x, .ok y =>
    if h : x = y then isTrue (by rw [h])
    else isFalse (fun hc => h (Except.ok.inj hc))
  | .error x, .error y =>
    if h : x = y then isTrue (by rw [h])
    else isFalse (fun hc => h (Except.error.inj hc))
  | .ok _, .error _ => isFalse (fun hc => Except.noConfusion hc)
  | .error _, .ok _ => isFalse (fun hc => Except.noConfusion hc)

/-! Concrete database states used to evaluate the operations on explicit
inputs (witnesses and counterexamples). -/

/-- A `Pending` draw whose eligibility floor (100) nobody meets. -/
def exDrawPending : Draw :=
  { id := 1, create_time := "2024-01-01 00:00:00", create_qq := "op",
    item_id := none, fitting := none, num := 1, min_lp_require := 100,
    plan_time := "2024-01-02 00:00:00", status := 0, winner_qq := none,
    description := none }

/-- State with one pending draw and no eligible participant. -/
def c1State : DbState :=
  { items := [], draws := [exDrawPending], lpSummary := [("a", 10)],
    nextDrawId := 2 }

/-- A `Pending` draw with eligibility floor 0 over an empty view. -/
def exDrawNoPool : Draw :=
  { id := 1, create_time := "2024-01-01 00:00:00", create_qq := "op",
    item_id := none, fitting := none, num := 1, min_lp_require := 0,
    plan_time := "2024-01-02 00:00:00", status := 0, winner_qq := none,
    description := none }

/-- State holding draw 1 (no eligible users) and no draw 99. -/
def c3State : DbState :=
  { items := [], draws := [exDrawNoPool], lpSummary := [], nextDrawId := 2 }

/-- An already-`Executed` draw whose stored winner is `"a"`. -/
def exDrawExecuted : Draw :=
  { id := 1, create_time := "2024-01-01 00:00:00", create_qq := "op",
    item_id := none, fitting := none, num := 1, min_lp_require := 0,
    plan_time := "2024-01-02 00:00:00", status := 1, winner_qq := some "a",
    description := none }

/-- State with one executed draw and an eligible participant. -/
def c4State : DbState :=
  { items := [], draws := [exDrawExecuted], lpSummary := [("a", 100)],
    nextDrawId := 2 }

/-- An `Unfillable` (terminal) draw. -/
def exDrawUnfillable : Draw :=
  { id := 1, create_time := "2024-01-01 00:00:00", create_qq := "op",
    item_id := none, fitting := none, num := 1, min_lp_require := 0,
    plan_time := "2024-01-02 00:00:00", status := 2, winner_qq := none,
    description := none }

/-- State with one `Unfillable` draw. -/
def c7State : DbState :=
  { items := [], draws := [exDrawUnfillable], lpSummary := [("a", 100)],
    nextDrawId := 2 }

/-- The row of `c7State` after `set_winner 1 "b"` overwrote it. -/
def c7DrawAfter : Draw :=
  { id := 1, create_time := "2024-01-01 00:00:00", create_qq := "op",
    item_id := none, fitting := none, num := 1, min_lp_require := 0,
    plan_time := "2024-01-02 00:00:00", status := 1, winner_qq := some "b",
    description := none }

/-- `c7State` after `set_winner 1 "b"`. -/
def c7StateAfter : DbState :=
  { items := [], draws := [c7DrawAfter], lpSummary := [("a", 100)],
    nextDrawId := 2 }

/-- State with item 7 (stock 10, owned by `"op"`) and no draws. -/
def c2State : DbState :=
  { items := [(7, { count := 10, seller := "op" })], draws := [],
    lpSummary := [], nextDrawId := 1 }

/-- `c2State` after `create_draw "op" (some 7) ... 3 ...` succeeded:
stock 10 became 7 and the pending row (id 1) was appended. -/
def c2StateAfterCreate : DbState :=
  { items := [(7, { count := 7, seller := "op" })],
    draws := [{ id := 1, create_time := "2024-01-01 00:00:00", create_qq := "op",
                item_id := some 7, fitting := none, num := 3, min_lp_require := 0,
                plan_time := "2024-01-02 00:00:00", status := 0, winner_qq := none,
                description := none }],
    lpSummary := [], nextDrawId := 2 }

/-- Empty catalog (item 7 absent). -/
def c8StateAbsent : DbState :=
  { items := [], draws := [], lpSummary := [], nextDrawId := 1 }

/-- Item 7 with stock 2, owned by `"x"`. -/
def c8StateLowStock : DbState :=
  { items := [(7, { count := 2, seller := "x" })], draws := [],
    lpSummary := [], nextDrawId := 1 }

/-- Item 7 with stock 5, owned by `"x"`. -/
def c8StateForeign : DbState :=
  { items := [(7, { count := 5, seller := "x" })], draws := [],
    lpSummary := [], nextDrawId := 1 }

/-- A pending draw that reserved 3 units of item 7. -/
def c6Draw : Draw :=
  { id := 1, create_time := "2024-01-01 00:00:00", create_qq := "op",
    item_id := some 7, fitting := none, num := 3, min_lp_require := 0,
    plan_time := "2024-01-02 00:00:00", status := 0, winner_qq := none,
    description := none }

/-- State where item 7 has 7 units left after `c6Draw`'s reservation. -/
def c6State : DbState :=
  { items := [(7, { count := 7, seller := "op" })], draws := [c6Draw],
    lpSummary := [], nextDrawId := 2 }

/-- `c6State` after deleting draw 1: stock restored to 10, row gone. -/
def c6StateAfterDelete : DbState :=
  { items := [(7, { count := 10, seller := "op" })], draws := [],
    lpSummary := [], nextDrawId := 2 }

/-- A pending draw asking for one winner above 50 LP. -/
def c5Draw : Draw :=
  { id := 1, create_time := "2024-01-01 00:00:00", create_qq := "op",
    item_id := none, fitting := none, num := 1, min_lp_require := 50,
    plan_time := "2024-01-02 00:00:00", status := 0, winner_qq := none,
    description := none }

/-- State with `c5Draw` and one eligible user (`"a"`, 100 LP). -/
def c5State : DbState :=
  { items := [], draws := [c5Draw], lpSummary := [("a", 100), ("b", 40)],
    nextDrawId := 2 }

/-- A pending draw asking for two winners above 50 LP. -/
def c9Draw : Draw :=
  { id := 1, create_time := "2024-01-01 00:00:00", create_qq := "op",
    item_id := none, fitting := none, num := 2, min_lp_require := 50,
    plan_time := "2024-01-02 00:00:00", status := 0, winner_qq := none,
    description := none }

/-- State with `c9Draw` and two eligible users. -/
def c9State : DbState :=
  { items := [], draws := [c9Draw], lpSummary := [("a", 100), ("b", 60)],
    nextDrawId := 2 }

/-- `c9State` after executing draw 1 with the identity shuffle:
winners `["a", "b"]` stored as `"a, b"`. -/
def c9StateAfter : DbState :=
  { items := [], draws := [{ c9Draw with status := 1, winner_qq := some "a, b" }],
    lpSummary := [("a", 100), ("b", 60)], nextDrawId := 2 }

/-- The executed row of `c9StateAfter`. -/
def c9DrawAfter : Draw := { c9Draw with status := 1, winner_qq := some "a, b" }

/-! Helper lemmas about the embedded SQL primitives. -/

theorem insertLe_perm (le : α → α → Bool) (x : α) (l : List α) :
    (insertLe le x l).Perm (x :: l) := by
  induction l with
  | nil => simp [insertLe]
  | cons y ys ih =>
    simp only [insertLe]
    split
    · exact List.Perm.refl _
    · exact (ih.cons y).trans (List.Perm.swap x y ys)

theorem sortLe_perm (le : α → α → Bool) (l : List α) : (sortLe le l).Perm l := by
  induction l with
  | nil => exact List.Perm.refl _
  | cons x xs ih =>
    exact (insertLe_perm le x (sortLe le xs)).trans (ih.cons x)

theorem mem_sortLe (le : α → α → Bool) (l : List α) (x : α) :
    x ∈ sortLe le l ↔ x ∈ l :=
  (sortLe_perm le l).mem_iff

theorem find?_updateDrawRows (l : List Draw) (j : Int) (f : Draw → Draw)
    (hf : ∀ d, (f d).id = d.id) (i : Int) :
    (updateDrawRows l j f).find? (fun d => d.id == i) =
      if i = j then (l.find? (fun d => d.id == i)).map f
      else l.find? (fun d => d.id == i) := by
  induction l with
  | nil => simp [updateDrawRows]
  | cons d ds ih =>
    simp only [updateDrawRows] at ih ⊢
    by_cases hdj : d.id = j
    · by_cases hij : i = j
      · subst hij
        simp [List.find?, hdj, hf]
      · simp only [List.map_cons, hdj, if_pos, beq_self_eq_true, if_true]
        rw [List.find?_cons, List.find?_cons]
        have hne : ((f d).id == i) = false := by
          simp [hf, hdj]
          omega
        have hne2 : (d.id == i) = false := by
          simp [hdj]
          omega
        simp only [hne, hne2, ih, if_neg hij]
    · have : (d.id == j) = false := by simp [hdj]
      simp only [List.map_cons, this, Bool.false_eq_true, if_false]
      rw [List.find?_cons, List.find?_cons]
      by_cases hdi : d.id = i
      · have hij : i ≠ j := by omega
        have hb : (d.id == i) = true := by simp [hdi]
        simp [hb, hij]
      · have : (d.id == i) = false := by simp [hdi]
        simp only [this, ih]

theorem find?_deleteDrawRows_self (l : List Draw) (i : Int) :
    (l.filter (fun e => !(e.id == i))).find? (fun d => d.id == i) = none := by
  rw [List.find?_eq_none]
  intro d hd
  have := (List.mem_filter.mp hd).2
  simp only [Bool.not_eq_eq_eq_not, Bool.not_true] at this
  simp [this]

theorem find?_deleteDrawRows_ne (l : List Draw) (i j : Int) (hne : j ≠ i) :
    (l.filter (fun e => !(e.id == i))).find? (fun d => d.id == j) =
      l.find? (fun d => d.id == j) := by
  induction l with
  | nil => simp
  | cons d ds ih =>
    by_cases hdi : d.id = i
    · have h1 : (!(d.id == i)) = false := by simp [hdi]
      have h2 : (d.id == j) = false := by
        simp only [beq_eq_false_iff_ne, ne_eq]
        omega
      simp [List.filter_cons, h1, List.find?_cons, h2, ih]
    · have h1 : (!(d.id == i)) = true := by simp [hdi]
      simp only [List.filter_cons, h1, if_true]
      rw [List.find?_cons, List.find?_cons]
      by_cases hdj : d.id = j
      · simp [hdj]
      · have : (d.id == j) = false := by simp [hdj]
        simp [this, ih]

theorem lookup_updateItemRows (l : List (Int × ShopItem)) (k : Int)
    (f : ShopItem → ShopItem) :
    (updateItemRows l k f).lookup k = (l.lookup k).map f := by
  induction l with
  | nil => simp [updateItemRows]
  | cons p ps ih =>
    by_cases hpk : p.1 = k
    · have h1 : (p.1 == k) = true := by simp [hpk]
      have h2 : (k == p.1) = true := by simp [hpk]
      simp only [updateItemRows, List.map_cons, h1, if_true]
      rw [List.lookup, List.lookup]
      simp [h2]
    · have h1 : (p.1 == k) = false := by simp [hpk]
      have h2 : (k == p.1) = false := by
        simp only [beq_eq_false_iff_ne, ne_eq]
        omega
      simp only [updateItemRows, List.map_cons, h1, Bool.false_eq_true, if_false]
      rw [List.lookup, List.lookup, h2]
      exact ih

theorem lookup_condDecrementItems (l : List (Int × ShopItem)) (k num : Int) :
    (condDecrementItems l k num).lookup k =
      (l.lookup k).map
        (fun it => if num ≤ it.count then { it with count := it.count - num } else it) := by
  induction l with
  | nil => simp [condDecrementItems]
  | cons p ps ih =>
    by_cases hpk : p.1 = k
    · by_cases hc : num ≤ p.2.count
      · have h1 : (p.1 == k && decide (num ≤ p.2.count)) = true := by simp [hpk, hc]
        simp only [condDecrementItems, List.map_cons, h1, if_true]
        rw [List.lookup, List.lookup]
        have h2 : (k == p.1) = true := by simp [hpk]
        simp [h2, hc]
      · have h1 : (p.1 == k && decide (num ≤ p.2.count)) = false := by simp [hpk, hc]
        simp only [condDecrementItems, List.map_cons, h1, Bool.false_eq_true, if_false]
        rw [List.lookup, List.lookup]
        have h2 : (k == p.1) = true := by simp [hpk]
        simp [h2, hc]
    · have h1 : (p.1 == k && decide (num ≤ p.2.count)) = false := by simp [hpk]
      have h2 : (k == p.1) = false := by
        simp only [beq_eq_false_iff_ne, ne_eq]
        omega
      simp only [condDecrementItems, List.map_cons, h1, Bool.false_eq_true, if_false]
      rw [List.lookup, List.lookup, h2]
      exact ih

theorem condDecrementAffected_pos (l : List (Int × ShopItem)) (k num : Int)
    (it : ShopItem) (hl : l.lookup k = some it) (hc : num ≤ it.count) :
    condDecrementAffected l k num ≠ 0 := by
  induction l with
  | nil => simp [List.lookup] at hl
  | cons p ps ih =>
    by_cases hpk : k = p.1
    · have h2 : (k == p.1) = true := by simp [hpk]
      rw [List.lookup, h2] at hl
      have hit : p.2 = it := by simpa using hl
      have h1 : (p.1 == k && decide (num ≤ p.2.count)) = true := by
        simp [hpk.symm, hit, hc]
      simp [condDecrementAffected, List.filter_cons, h1]
    · have h2 : (k == p.1) = false := by simp [hpk]
      rw [List.lookup, h2] at hl
      have := ih hl
      simp only [condDecrementAffected, List.filter_cons] at this ⊢
      split
      · simp
      · exact this

theorem winnersJoin_cons_cons (a b : String) (l : List String) :
    winnersJoin (a :: b :: l) = a ++ ", " ++ winnersJoin (b :: l) := rfl

theorem length_le_length_winnersJoin (ws : List String) (w : String) (hw : w ∈ ws) :
    w.length ≤ (winnersJoin ws).length := by
  induction ws with
  | nil => simp at hw
  | cons a l ih =>
    cases l with
    | nil =>
      simp only [List.mem_singleton] at hw
      subst hw
      exact Nat.le_refl _
    | cons b l' =>
      rw [winnersJoin_cons_cons]
      simp only [String.length_append]
      rcases List.mem_cons.mp hw with h | h
      · subst h
        omega
      · have := ih h
        omega

theorem length_winnersJoin_two (ws : List String) (w : String) (hw : w ∈ ws)
    (h2 : 2 ≤ ws.length) : w.length + 2 ≤ (winnersJoin ws).length := by
  cases ws with
  | nil => simp at hw
  | cons a l =>
    cases l with
    | nil => simp at h2
    | cons b l' =>
      rw [winnersJoin_cons_cons]
      simp only [String.length_append]
      rcases List.mem_cons.mp hw with h | h
      · subst h
        have : (0 : Nat) ≤ (winnersJoin (b :: l')).length := Nat.zero_le _
        have hsep : (", ").length = 2 := rfl
        omega
      · have := length_le_length_winnersJoin (b :: l') w h
        have hsep : (", ").length = 2 := rfl
        omega

theorem winnersJoin_ne_mem (ws : List String) (w : String) (hw : w ∈ ws)
    (h2 : 2 ≤ ws.length) : winnersJoin ws ≠ w := by
  intro h
  have := length_winnersJoin_two ws w hw h2
  rw [h] at this
  omega

theorem findDraw_id (st : DbState) (i : Int) (d : Draw)
    (h : findDraw st i = some d) : d.id = i := by
  have := List.find?_some h
  simpa using this

theorem findDraw_mem (st : DbState) (i : Int) (d : Draw)
    (h : findDraw st i = some d) : d ∈ st.draws :=
  List.mem_of_find?_eq_some h

theorem findDraw_none_status (st : DbState) (i : Int) (d : Draw)
    (shuffle : List String → List String)
    (hfind : findDraw st i = some d) (hstat : d.status ≠ 0) :
    draw_lucky_winner shuffle st i = (none, st) := by
  simp [draw_lucky_winner, hfind, hstat]

theorem findDraw_none_absent (st : DbState) (i : Int)
    (shuffle : List String → List String)
    (hfind : findDraw st i = none) :
    draw_lucky_winner shuffle st i = (none, st) := by
  simp [draw_lucky_winner, hfind]

theorem draw_lucky_winner_empty_eligible (st : DbState) (i : Int) (d : Draw)
    (shuffle : List String → List String)
    (hfind : findDraw st i = some d) (hstat : d.status = 0)
    (helig : eligible_users st d.min_lp_require = []) :
    draw_lucky_winner shuffle st i = (none, st) := by
  simp [draw_lucky_winner, hfind, hstat, helig]

theorem findDraw_update (st : DbState) (j : Int) (f : Draw → Draw)
    (hf : ∀ d, (f d).id = d.id) (i : Int) :
    findDraw { st with draws := updateDrawRows st.draws j f } i =
      if i = j then (findDraw st i).map f else findDraw st i :=
  find?_updateDrawRows st.draws j f hf i

theorem findDraw_draw_lucky_winner_ne (shuffle : List String → List String)
    (st : DbState) (j i : Int) (hne : i ≠ j) :
    findDraw (draw_lucky_winner shuffle st j).2 i = findDraw st i := by
  unfold draw_lucky_winner
  cases hfd : findDraw st j with
  | none => rfl
  | some d =>
    by_cases hstat : d.status ≠ 0
    · simp [hstat]
    · simp only [hstat, if_false]
      by_cases helig : (eligible_users st d.min_lp_require).isEmpty
      · simp [helig]
      · simp only [helig, Bool.false_eq_true, if_false]
        split
        · rfl
        · rw [findDraw_update]
          · simp [hne]
          · intro e
            rfl

theorem findDraw_scheduler_handle_ne (shuffle : List String → List String)
    (st : DbState) (j i : Int) (hne : i ≠ j) :
    findDraw (scheduler_handle_draw shuffle st j) i = findDraw st i := by
  unfold scheduler_handle_draw
  cases hrun : draw_lucky_winner shuffle st j with
  | mk r st' =>
    cases r with
    | some ws =>
      have := findDraw_draw_lucky_winner_ne shuffle st j i hne
      rw [hrun] at this
      exact this
    | none =>
      have h1 := findDraw_draw_lucky_winner_ne shuffle st j i hne
      rw [hrun] at h1
      simp only []
      rw [findDraw_update]
      · simp [hne, h1]
      · intro e
        rfl

theorem findDraw_foldl_scheduler (shuffle : List String → List String)
    (ids : List Int) (st : DbState) (i : Int) (h : ∀ j ∈ ids, j ≠ i) :
    findDraw (ids.foldl (fun s j => scheduler_handle_draw shuffle s j) st) i =
      findDraw st i := by
  induction ids generalizing st with
  | nil => rfl
  | cons j js ih =>
    simp only [List.foldl_cons]
    rw [ih _ (fun k hk => h k (List.mem_cons_of_mem j hk))]
    exact findDraw_scheduler_handle_ne shuffle st j i
      (fun he => (h j (List.mem_cons_self j js)) he.symm)

theorem mem_due_pending_ids (st : DbState) (now : String) (j : Int)
    (hj : j ∈ due_pending_ids st now) :
    ∃ e ∈ st.draws, e.id = j ∧ e.status = 0 ∧ strLe e.plan_time now = true := by
  simp only [due_pending_ids, List.mem_map] at hj
  obtain ⟨e, he, rfl⟩ := hj
  rw [mem_sortLe] at he
  have := List.mem_filter.mp he
  refine ⟨e, this.1, rfl, ?_, ?_⟩
  · have h := this.2
    simp only [Bool.and_eq_true, beq_iff_eq] at h
    exact h.1
  · have h := this.2
    simp only [Bool.and_eq_true] at h
    exact h.2

/-! Claim theorems. -/

/-- C1 (counterexample): executing a `Pending` draw with an empty
eligible set via `draw_lucky_winner` — the shared entry point of manual
execution — returns the no-eligible outcome `none` but leaves the
status `0` (`Pending`), not `2` (`Unfillable`), contradicting the claim
that executing marks the draw `Unfillable`. -/
theorem execute_no_eligible_leaves_pending_cex :
    eligible_users c1State exDrawPending.min_lp_require = [] ∧
    (draw_lucky_winner (fun l => l) c1State 1).1 = none ∧
    findDraw (draw_lucky_winner (fun l => l) c1State 1).2 1 = some exDrawPending ∧
    exDrawPending.status = 0 ∧ (0 : Int) ≠ 2 := by decide

/-- C1 (amended): for a `Pending` draw whose eligible set is empty,
`draw_lucky_winner` returns the no-eligible outcome `none` and leaves
the state (hence the `Pending` status) unchanged; the `Unfillable` (2)
marking happens only on the scheduler path, which issues a separate
status update after observing the `none` outcome. -/
theorem no_eligible_unfillable_only_in_scheduler
    (shuffle : List String → List String) (st : DbState) (i : Int) (d : Draw)
    (hfind : findDraw st i = some d) (hstat : d.status = 0)
    (helig : eligible_users st d.min_lp_require = []) :
    draw_lucky_winner shuffle st i = (none, st) ∧
    findDraw (scheduler_handle_draw shuffle st i) i = some { d with status := 2 } := by
  have h1 := draw_lucky_winner_empty_eligible st i d shuffle hfind hstat helig
  refine ⟨h1, ?_⟩
  unfold scheduler_handle_draw
  rw [h1]
  simp only []
  rw [findDraw_update st i (fun e => { e with status := 2 }) (fun e => rfl) i]
  simp [hfind]

/-- Witness for the amended C1 at a concrete state. -/
theorem no_eligible_unfillable_only_in_scheduler_witness :
    draw_lucky_winner (fun l => l) c1State 1 = (none, c1State) ∧
    findDraw (scheduler_handle_draw (fun l => l) c1State 1) 1 =
      some { exDrawPending with status := 2 } :=
  no_eligible_unfillable_only_in_scheduler (fun l => l) c1State 1 exDrawPending
    (by decide) (by decide) (by decide)

/-- C3 (counterexample): `draw_lucky_winner` on an id with no draw
record (99) returns the same value `none` that it returns for a pending
draw with no eligible participants (1) — the two outcomes are not
distinguishable, contradicting the claimed distinct `NotFound`
outcome. -/
theorem execute_absent_indistinguishable_cex :
    findDraw c3State 99 = none ∧
    findDraw c3State 1 = some exDrawNoPool ∧ exDrawNoPool.status = 0 ∧
    eligible_users c3State exDrawNoPool.min_lp_require = [] ∧
    (draw_lucky_winner (fun l => l) c3State 99).1 =
      (draw_lucky_winner (fun l => l) c3State 1).1 := by decide

/-- C3 (amended): for a draw id with no record, `draw_lucky_winner`
returns `none` with the state unchanged — the same value as the
no-eligible-participants outcome, so the two cases cannot be told apart
from the return value. -/
theorem execute_absent_returns_none
    (shuffle : List String → List String) (st : DbState) (i : Int)
    (hfind : findDraw st i = none) :
    draw_lucky_winner shuffle st i = (none, st) :=
  findDraw_none_absent st i shuffle hfind

/-- Witness for the amended C3 at a concrete state. -/
theorem execute_absent_returns_none_witness :
    draw_lucky_winner (fun l => l) c3State 99 = (none, c3State) :=
  execute_absent_returns_none (fun l => l) c3State 99 (by decide)

/-- C4 (counterexample): on an `Executed` draw whose stored winner set
is `["a"]`, a second `draw_lucky_winner` call returns `none` — not the
prior outcome `Winners(["a"])` — contradicting the claim that the call
returns the draw's prior outcome state. -/
theorem execute_non_pending_returns_none_cex :
    findDraw c4State 1 = some exDrawExecuted ∧
    exDrawExecuted.status = 1 ∧ exDrawExecuted.winner_qq = some "a" ∧
    (draw_lucky_winner (fun l => l) c4State 1).1 = none ∧
    (none : Option (List String)) ≠ some ["a"] := by decide

/-- C4 (amended): on a draw whose status is not `Pending`,
`draw_lucky_winner` is an idempotent no-op — it mutates no state and
does not run selection — but it returns `none` (the no-winners value)
rather than the prior winner set; a second call behaves identically, so
two calls never produce two different winner sets. -/
theorem execute_non_pending_noop
    (sh1 sh2 : List String → List String) (st : DbState) (i : Int) (d : Draw)
    (hfind : findDraw st i = some d) (hstat : d.status ≠ 0) :
    draw_lucky_winner sh1 st i = (none, st) ∧
    draw_lucky_winner sh2 (draw_lucky_winner sh1 st i).2 i = (none, st) := by
  have h1 := findDraw_none_status st i d sh1 hfind hstat
  refine ⟨h1, ?_⟩
  rw [h1]
  exact findDraw_none_status st i d sh2 hfind hstat

/-- Witness for the amended C4 at a concrete state. -/
theorem execute_non_pending_noop_witness :
    draw_lucky_winner (fun l => l) c4State 1 = (none, c4State) ∧
    draw_lucky_winner (fun l => l) (draw_lucky_winner (fun l => l) c4State 1).2 1 =
      (none, c4State) :=
  execute_non_pending_noop (fun l => l) (fun l => l) c4State 1 exDrawExecuted
    (by decide) (by decide)

/-- C7 (counterexample): `set_winner` on an `Unfillable` (status 2) draw
unconditionally sets status 1 (`Executed`), so a terminal status is left
by an operation of the core, contradicting the claim. -/
theorem set_winner_breaks_terminal_cex :
    findDraw c7State 1 = some exDrawUnfillable ∧
    exDrawUnfillable.status = 2 ∧
    set_winner c7State 1 "b" = .ok c7StateAfter ∧
    findDraw c7StateAfter 1 = some c7DrawAfter ∧
    c7DrawAfter.status = 1 ∧ c7DrawAfter.winner_qq = some "b" ∧
    (1 : Int) ≠ 2 := by decide

/-- C7 (amended): once a draw is `Executed` or `Unfillable`,
`draw_lucky_winner` and the scheduler tick never change its status, and
the scheduler's due query never selects it; `set_winner`, however,
unconditionally overwrites the status to `Executed`, so it can leave the
`Unfillable` state (see the counterexample). -/
theorem terminal_stable_execute_scheduler
    (shuffle : List String → List String) (st : DbState) (i : Int) (d : Draw)
    (now : String)
    (hfind : findDraw st i = some d) (hterm : d.status = 1 ∨ d.status = 2)
    (hids : (st.draws.map Draw.id).Nodup) :
    draw_lucky_winner shuffle st i = (none, st) ∧
    i ∉ due_pending_ids st now ∧
    findDraw (check_and_execute_pending_lotteries shuffle st now) i = some d := by
  have hstat : d.status ≠ 0 := by rcases hterm with h | h <;> omega
  have h1 := findDraw_none_status st i d shuffle hfind hstat
  have hnotin : i ∉ due_pending_ids st now := by
    intro hmem
    obtain ⟨e, he, heid, hest, -⟩ := mem_due_pending_ids st now i hmem
    have hd_mem := findDraw_mem st i d hfind
    have hd_id := findDraw_id st i d hfind
    have hed : e = d :=
      List.inj_on_of_nodup_map hids he hd_mem (by rw [heid, hd_id])
    rw [hed] at hest
    exact hstat hest
  refine ⟨h1, hnotin, ?_⟩
  unfold check_and_execute_pending_lotteries
  rw [findDraw_foldl_scheduler shuffle _ st i
    (fun j hj hji => hnotin (hji ▸ hj))]
  exact hfind

/-- Witness for the amended C7 at a concrete state. -/
theorem terminal_stable_execute_scheduler_witness :
    draw_lucky_winner (fun l => l) c7State 1 = (none, c7State) ∧
    1 ∉ due_pending_ids c7State "2024-06-01 00:00:00" ∧
    findDraw (check_and_execute_pending_lotteries (fun l => l) c7State
      "2024-06-01 00:00:00") 1 = some exDrawUnfillable :=
  terminal_stable_execute_scheduler (fun l => l) c7State 1 exDrawUnfillable
    "2024-06-01 00:00:00" (by decide) (Or.inr (by decide)) (by decide)

/-- C10: `set_winner` always returns `ok`, even for an absent draw id;
when the record is absent the state is unchanged, and when it exists the
row gets status `Executed` (1) and the given winner, whatever the prior
status was. -/
theorem set_winner_total (st : DbState) (i : Int) (w : String) :
    ∃ st', set_winner st i w = .ok st' ∧
      (findDraw st i = none → st' = st) ∧
      (∀ d, findDraw st i = some d →
        findDraw st' i = some { d with status := 1, winner_qq := some w }) := by
  refine ⟨_, rfl, ?_, ?_⟩
  · intro habs
    have hall := List.find?_eq_none.mp habs
    have hupd : updateDrawRows st.draws i
        (fun e => { e with status := 1, winner_qq := some w }) = st.draws := by
      unfold updateDrawRows
      have hcong : ∀ e ∈ st.draws,
          (if e.id == i then ({ e with status := 1, winner_qq := some w } : Draw)
            else e) = id e :=
        fun e he => by simp [hall e he]
      rw [List.map_congr_left hcong, List.map_id]
    simp [set_winner, hupd]
  · intro d hd
    rw [findDraw_update st i
      (fun e => { e with status := 1, winner_qq := some w }) (fun e => rfl) i]
    simp [hd]

/-- Witness for C10: `set_winner` on the absent id 99 and the present
id 1 of a concrete state (the prior status being terminal). -/
theorem set_winner_total_witness :
    ∃ st', set_winner c7State 99 "b" = .ok st' ∧
      (findDraw c7State 99 = none → st' = c7State) ∧
      (∀ d, findDraw c7State 99 = some d →
        findDraw st' 99 = some { d with status := 1, winner_qq := some "b" }) :=
  set_winner_total c7State 99 "b"

/-- C8: with a linked item, `create_draw` classifies failures in source
order — missing item (`RowNotFound`), then insufficient stock, then
foreign ownership — so a non-owner hitting insufficient stock gets the
stock error, not the ownership error. -/
theorem create_draw_error_precedence
    (st1 st2 st3 : DbState) (qq : String) (iid : Int) (fitting : Option String)
    (num minlp : Int) (ptime : String) (desc : Option String) (ctime : String)
    (it2 it3 : ShopItem)
    (h1 : lookupItem st1 iid = none)
    (h2 : lookupItem st2 iid = some it2) (h2stock : it2.count < num)
    (_h2own : it2.seller ≠ qq)
    (h3 : lookupItem st3 iid = some it3) (h3stock : num ≤ it3.count)
    (h3own : it3.seller ≠ qq) :
    create_draw st1 qq (some iid) fitting num minlp ptime desc ctime =
      .error .rowNotFound ∧
    create_draw st2 qq (some iid) fitting num minlp ptime desc ctime =
      .error (.decode (insufficientStockMsg num it2.count)) ∧
    create_draw st3 qq (some iid) fitting num minlp ptime desc ctime =
      .error (.decode "只能使用自己的商品创建抽奖") := by
  refine ⟨?_, ?_, ?_⟩
  · simp [create_draw, h1]
  · simp [create_draw, h2, h2stock]
  · have hnl : ¬ it3.count < num := by omega
    simp [create_draw, h3, hnl, h3own]

/-- Witness for C8 at concrete states: empty catalog, an item with
stock 2 owned by `"x"`, and an item with stock 5 owned by `"x"`, all
requested by non-owner `"op"` with quantity 3. -/
theorem create_draw_error_precedence_witness :
    create_draw c8StateAbsent "op" (some 7) none 3 0 "2024-01-02 00:00:00" none
      "2024-01-01 00:00:00" = .error .rowNotFound ∧
    create_draw c8StateLowStock "op" (some 7) none 3 0 "2024-01-02 00:00:00" none
      "2024-01-01 00:00:00" = .error (.decode (insufficientStockMsg 3 2)) ∧
    create_draw c8StateForeign "op" (some 7) none 3 0 "2024-01-02 00:00:00" none
      "2024-01-01 00:00:00" = .error (.decode "只能使用自己的商品创建抽奖") :=
  create_draw_error_precedence c8StateAbsent c8StateLowStock c8StateForeign
    "op" 7 none 3 0 "2024-01-02 00:00:00" none "2024-01-01 00:00:00"
    { count := 2, seller := "x" } { count := 5, seller := "x" }
    (by decide) (by decide) (by decide) (by decide) (by decide) (by decide)
    (by decide)

/-- C2: with a linked item, `create_draw` succeeds exactly when the
stock covers the quantity and the creator owns the item; on success the
item's stock is decremented by exactly `num` (the write itself guarded
by `count >= num`) and the new `Pending` draw row is appended, both
inside one transaction.  On any failure the embedding returns only an
error — the transaction is rolled back, so neither write is
observable. -/
theorem create_draw_reserves_stock_iff_ok
    (st : DbState) (qq : String) (iid : Int) (fitting : Option String)
    (num minlp : Int) (ptime : String) (desc : Option String) (ctime : String)
    (item : ShopItem) (hitem : lookupItem st iid = some item) :
    ((∃ r, create_draw st qq (some iid) fitting num minlp ptime desc ctime = .ok r) ↔
      num ≤ item.count ∧ item.seller = qq) ∧
    (∀ st' did,
      create_draw st qq (some iid) fitting num minlp ptime desc ctime = .ok (st', did) →
      lookupItem st' iid = some { item with count := item.count - num } ∧
      st'.draws = st.draws ++ [mkDraw st ctime qq (some iid) fitting num minlp ptime desc] ∧
      (mkDraw st ctime qq (some iid) fitting num minlp ptime desc).status = 0) := by
  by_cases hstock : item.count < num
  · have hres : create_draw st qq (some iid) fitting num minlp ptime desc ctime =
        .error (.decode (insufficientStockMsg num item.count)) := by
      simp [create_draw, hitem, hstock]
    refine ⟨?_, ?_⟩
    · rw [hres]
      constructor
      · rintro ⟨r, hr⟩
        exact Except.noConfusion hr
      · rintro ⟨hle, -⟩
        omega
    · intro st' did h
      rw [hres] at h
      exact Except.noConfusion h
  · by_cases hseller : item.seller = qq
    · have hne : ¬ item.seller ≠ qq := fun hc => hc hseller
      have haff : condDecrementAffected st.items iid num ≠ 0 :=
        condDecrementAffected_pos st.items iid num item hitem (by omega)
      have haffb : (condDecrementAffected st.items iid num == 0) = false := by
        simpa using haff
      have hres : create_draw st qq (some iid) fitting num minlp ptime desc ctime =
          .ok ({ st with items := condDecrementItems st.items iid num,
                         draws := (st.draws ++ [mkDraw st ctime qq (some iid)
                           fitting num minlp ptime desc]),
                         nextDrawId := st.nextDrawId + 1 }, st.nextDrawId) := by
        simp [create_draw, hitem, hstock, hne, haffb]
      refine ⟨?_, ?_⟩
      · rw [hres]
        exact ⟨fun _ => ⟨by omega, hseller⟩, fun _ => ⟨_, rfl⟩⟩
      · intro st' did h
        rw [hres] at h
        obtain ⟨hst, -⟩ := Prod.mk.injEq .. ▸ Except.ok.inj h
        refine ⟨?_, ?_, rfl⟩
        · rw [← hst]
          show (condDecrementItems st.items iid num).lookup iid = _
          have hitem2 : List.lookup iid st.items = some item := hitem
          rw [lookup_condDecrementItems, hitem2]
          have : num ≤ item.count := by omega
          simp [this]
        · rw [← hst]
    · have hres : create_draw st qq (some iid) fitting num minlp ptime desc ctime =
          .error (.decode "只能使用自己的商品创建抽奖") := by
        simp [create_draw, hitem, hstock, hseller]
      refine ⟨?_, ?_⟩
      · rw [hres]
        constructor
        · rintro ⟨r, hr⟩
          exact Except.noConfusion hr
        · rintro ⟨-, hq⟩
          exact absurd hq hseller
      · intro st' did h
        rw [hres] at h
        exact Except.noConfusion h

/-- Witness for C2: creating a draw over item 7 (stock 10, owner
`"op"`) with quantity 3 leaves stock 7 and appends the pending row. -/
theorem create_draw_reserves_stock_iff_ok_witness :
    lookupItem c2StateAfterCreate 7 = some { count := 7, seller := "op" } ∧
    c2StateAfterCreate.draws =
      c2State.draws ++ [mkDraw c2State "2024-01-01 00:00:00" "op" (some 7) none 3 0
        "2024-01-02 00:00:00" none] := by
  have h := create_draw_reserves_stock_iff_ok c2State "op" 7 none 3 0
    "2024-01-02 00:00:00" none "2024-01-01 00:00:00"
    { count := 10, seller := "op" } (by decide)
  have hok : create_draw c2State "op" (some 7) none 3 0 "2024-01-02 00:00:00" none
      "2024-01-01 00:00:00" = .ok (c2StateAfterCreate, 1) := by decide
  have hc := h.2 c2StateAfterCreate 1 hok
  exact ⟨hc.1, hc.2.1⟩

/-- C6: deleting an existing draw removes exactly its row; the linked
item's stock is incremented by the draw's quantity precisely when the
draw was still `Pending` and item-linked, and is untouched otherwise
(`Executed`/`Unfillable` or no linked item); deleting a missing id
fails with `RowNotFound`.  All of it happens in one transaction of the
embedding. -/
theorem delete_draw_restores_stock_iff_pending
    (st st0 : DbState) (i i0 : Int) (d : Draw)
    (hfind : findDraw st i = some d) (habs : findDraw st0 i0 = none) :
    (∃ st', delete_draw st i = .ok st' ∧
      findDraw st' i = none ∧
      (∀ j, j ≠ i → findDraw st' j = findDraw st j) ∧
      (∀ iid it, d.status = 0 → d.item_id = some iid → lookupItem st iid = some it →
        lookupItem st' iid = some { it with count := it.count + d.num }) ∧
      ((d.status ≠ 0 ∨ d.item_id = none) → st'.items = st.items)) ∧
    delete_draw st0 i0 = .error .rowNotFound := by
  constructor
  · by_cases hcond : (d.status == 0 && d.item_id.isSome) = true
    · have hparts := hcond
      rw [Bool.and_eq_true] at hparts
      have h0 : d.status = 0 := by
        have := hparts.1
        simpa using this
      obtain ⟨iid, hiid⟩ := Option.isSome_iff_exists.mp hparts.2
      have hres : delete_draw st i = .ok { st with
          items := (updateItemRows st.items iid
            (fun it => { it with count := it.count + d.num })),
          draws := st.draws.filter (fun e => !(e.id == i)) } := by
        simp [delete_draw, hfind, hiid, h0]
      refine ⟨_, hres, ?_, ?_, ?_, ?_⟩
      · exact find?_deleteDrawRows_self st.draws i
      · intro j hj
        exact find?_deleteDrawRows_ne st.draws i j hj
      · intro iid' it h0' hiid' hit
        have hii : iid' = iid := by
          rw [hiid] at hiid'
          exact (Option.some.inj hiid').symm
        subst hii
        show (updateItemRows st.items iid'
          (fun x => { x with count := x.count + d.num })).lookup iid' = _
        have hit2 : List.lookup iid' st.items = some it := hit
        rw [lookup_updateItemRows, hit2]
        rfl
      · intro hcase
        rcases hcase with h | h
        · exact absurd h0 h
        · rw [hiid] at h
          exact Option.noConfusion h
    · have hcf : (d.status == 0 && d.item_id.isSome) = false := by
        revert hcond
        cases d.status == 0 && d.item_id.isSome <;> simp
      have hres : delete_draw st i = .ok { st with
          draws := st.draws.filter (fun e => !(e.id == i)) } := by
        simp [delete_draw, hfind, hcf]
      refine ⟨_, hres, ?_, ?_, ?_, ?_⟩
      · exact find?_deleteDrawRows_self st.draws i
      · intro j hj
        exact find?_deleteDrawRows_ne st.draws i j hj
      · intro iid it h0 hiid hit
        have : (d.status == 0 && d.item_id.isSome) = true := by simp [h0, hiid]
        rw [this] at hcf
        exact Bool.noConfusion hcf
      · intro hcase
        rfl
  · simp only [delete_draw, habs]

/-- Witness for C6: deleting the pending draw 1 (3 units of item 7
reserved) restores stock 7 to 10; deleting the missing id 99 fails. -/
theorem delete_draw_restores_stock_iff_pending_witness :
    delete_draw c6State 1 = .ok c6StateAfterDelete ∧
    lookupItem c6StateAfterDelete 7 = some { count := 10, seller := "op" } ∧
    findDraw c6StateAfterDelete 1 = none ∧
    delete_draw c6State 99 = .error .rowNotFound := by
  obtain ⟨⟨st', hok, hnone, -, hrest, -⟩, habs⟩ :=
    delete_draw_restores_stock_iff_pending c6State c6State 1 99 c6Draw
      (by decide) (by decide)
  have hcalc : delete_draw c6State 1 = .ok c6StateAfterDelete := by decide
  rw [hok] at hcalc
  have hst : st' = c6StateAfterDelete := Except.ok.inj hcalc
  subst hst
  refine ⟨hok, ?_, hnone, habs⟩
  have := hrest 7 { count := 7, seller := "op" } (by decide) (by decide) (by decide)
  simpa using this

/-- C5: executing a `Pending` draw (positive `num`, as guaranteed at
creation) over a non-empty eligible population returns exactly
`min(num, |eligible|)` winners, pairwise distinct, every one of them
holding at least `min_lp_require` points in the summary view at query
time.  The shuffle is assumed to permute the eligible list (what the
seeded `StdRng` shuffle does), and the view's identities are pairwise
distinct (it groups by the user table's primary key). -/
theorem execute_selection_bound_eligibility
    (shuffle : List String → List String) (st : DbState) (i : Int) (d : Draw)
    (hfind : findDraw st i = some d) (hstat : d.status = 0)
    (hnum1 : 1 ≤ d.num) (hnum2 : d.num < 2 ^ 31)
    (helig : eligible_users st d.min_lp_require ≠ [])
    (hperm : (shuffle (eligible_users st d.min_lp_require)).Perm
      (eligible_users st d.min_lp_require))
    (hnodup : (st.lpSummary.map Prod.fst).Nodup) :
    ∃ ws st', draw_lucky_winner shuffle st i = (some ws, st') ∧
      ws.length = min d.num.toNat (eligible_users st d.min_lp_require).length ∧
      ws.Nodup ∧
      ∀ w ∈ ws, ∃ p ∈ st.lpSummary, p.1 = w ∧ d.min_lp_require ≤ p.2 := by
  have heligb : (eligible_users st d.min_lp_require).isEmpty = false := by
    cases he : eligible_users st d.min_lp_require with
    | nil => exact absurd he helig
    | cons a l => rfl
  have hlen1 : 1 ≤ (eligible_users st d.min_lp_require).length := by
    cases he : eligible_users st d.min_lp_require with
    | nil => exact absurd he helig
    | cons a l => simp
  have hpow : d.num < (2 : Int) ^ 64 := by
    have h31 : (2 : Int) ^ 31 ≤ 2 ^ 64 := by norm_num
    omega
  have hcast : intAsUsize d.num = d.num.toNat := by
    unfold intAsUsize
    rw [Int.emod_eq_of_lt (by omega) hpow]
  have hshlen : (shuffle (eligible_users st d.min_lp_require)).length =
      (eligible_users st d.min_lp_require).length := hperm.length_eq
  have hwslen : ((shuffle (eligible_users st d.min_lp_require)).take
      (min (intAsUsize d.num) (eligible_users st d.min_lp_require).length)).length =
      min d.num.toNat (eligible_users st d.min_lp_require).length := by
    rw [List.length_take, hshlen, hcast]
    omega
  have hwsb : ((shuffle (eligible_users st d.min_lp_require)).take
      (min (intAsUsize d.num) (eligible_users st d.min_lp_require).length)).isEmpty
      = false := by
    cases hws : (shuffle (eligible_users st d.min_lp_require)).take
        (min (intAsUsize d.num) (eligible_users st d.min_lp_require).length) with
    | nil =>
      have hlentake := hwslen
      rw [hws] at hlentake
      simp only [List.length_nil] at hlentake
      omega
    | cons a l => rfl
  have hrun : draw_lucky_winner shuffle st i =
      (some ((shuffle (eligible_users st d.min_lp_require)).take
          (min (intAsUsize d.num) (eligible_users st d.min_lp_require).length)),
       { st with draws := (updateDrawRows st.draws i (fun e =>
          { e with status := 1,
                   winner_qq := some (winnersJoin
                     ((shuffle (eligible_users st d.min_lp_require)).take
                       (min (intAsUsize d.num)
                         (eligible_users st d.min_lp_require).length))) })) }) := by
    simp [draw_lucky_winner, hfind, hstat, heligb, hwsb]
  have heln : (eligible_users st d.min_lp_require).Nodup :=
    hnodup.sublist (List.Sublist.map Prod.fst (List.filter_sublist st.lpSummary))
  have hshn : (shuffle (eligible_users st d.min_lp_require)).Nodup :=
    hperm.symm.nodup heln
  refine ⟨_, _, hrun, hwslen, hshn.sublist (List.take_sublist _ _), ?_⟩
  intro w hw
  have h1 : w ∈ shuffle (eligible_users st d.min_lp_require) :=
    List.mem_of_mem_take hw
  have h2 : w ∈ eligible_users st d.min_lp_require := hperm.mem_iff.mp h1
  simp only [eligible_users, List.mem_map, List.mem_filter] at h2
  obtain ⟨p, ⟨hp, hc⟩, rfl⟩ := h2
  exact ⟨p, hp, rfl, by simpa using hc⟩

/-- Witness for C5 at a concrete state: one requested winner, eligible
population `["a"]`, identity shuffle. -/
theorem execute_selection_bound_eligibility_witness :
    ∃ ws st', draw_lucky_winner (fun l => l) c5State 1 = (some ws, st') ∧
      ws.length = min c5Draw.num.toNat
        (eligible_users c5State c5Draw.min_lp_require).length ∧
      ws.Nodup ∧
      ∀ w ∈ ws, ∃ p ∈ c5State.lpSummary, p.1 = w ∧ c5Draw.min_lp_require ≤ p.2 :=
  execute_selection_bound_eligibility (fun l => l) c5State 1 c5Draw
    (by decide) (by decide) (by decide) (by decide) (by decide)
    (List.Perm.refl _) (by decide)

theorem draw_lucky_winner_ok_inv (shuffle : List String → List String)
    (st : DbState) (i : Int) (ws : List String) (st' : DbState)
    (h : draw_lucky_winner shuffle st i = (some ws, st')) :
    ∃ d, findDraw st i = some d ∧ d.status = 0 ∧
      st' = { st with draws := (updateDrawRows st.draws i (fun e =>
        { e with status := 1, winner_qq := some (winnersJoin ws) })) } := by
  cases hfd : findDraw st i with
  | none =>
    rw [findDraw_none_absent st i shuffle hfd] at h
    simp at h
  | some d =>
    by_cases hstat : d.status = 0
    · by_cases helig : eligible_users st d.min_lp_require = []
      · rw [draw_lucky_winner_empty_eligible st i d shuffle hfd hstat helig] at h
        simp at h
      · have heligb : (eligible_users st d.min_lp_require).isEmpty = false := by
          cases he : eligible_users st d.min_lp_require with
          | nil => exact absurd he helig
          | cons a l => rfl
        by_cases hwsb : ((shuffle (eligible_users st d.min_lp_require)).take
            (min (intAsUsize d.num)
              (eligible_users st d.min_lp_require).length)).isEmpty = true
        · have hrun : draw_lucky_winner shuffle st i = (none, st) := by
            simp [draw_lucky_winner, hfd, hstat, heligb, hwsb]
          rw [hrun] at h
          simp at h
        · have hwsbf : ((shuffle (eligible_users st d.min_lp_require)).take
              (min (intAsUsize d.num)
                (eligible_users st d.min_lp_require).length)).isEmpty = false := by
            revert hwsb
            cases ((shuffle (eligible_users st d.min_lp_require)).take
              (min (intAsUsize d.num)
                (eligible_users st d.min_lp_require).length)).isEmpty <;> simp
          have hrun : draw_lucky_winner shuffle st i =
              (some ((shuffle (eligible_users st d.min_lp_require)).take
                  (min (intAsUsize d.num)
                    (eligible_users st d.min_lp_require).length)),
               { st with draws := (updateDrawRows st.draws i (fun e =>
                  { e with status := 1,
                           winner_qq := some (winnersJoin
                             ((shuffle (eligible_users st d.min_lp_require)).take
                               (min (intAsUsize d.num)
                                 (eligible_users st d.min_lp_require).length))) })) }) := by
            simp [draw_lucky_winner, hfd, hstat, heligb, hwsbf]
          rw [hrun] at h
          rw [Prod.mk.injEq] at h
          obtain ⟨hw, hs⟩ := h
          have hwe := Option.some.inj hw
          refine ⟨d, rfl, hstat, ?_⟩
          rw [← hs, hwe]
    · rw [findDraw_none_status st i d shuffle hfd hstat] at h
      simp at h

/-- C9: `get_user_wins` returns exactly the rows whose whole stored
`winner_qq` equals the queried identity (SQL `winner_qq = ?`); hence
after an execution stored two or more winners comma-joined, no
individual winner's `get_user_wins` contains that draw's row. -/
theorem get_user_wins_exact_match
    (shuffle : List String → List String) (st st' : DbState) (i : Int)
    (ws : List String) (w : String)
    (hsucc : draw_lucky_winner shuffle st i = (some ws, st'))
    (hlen : 2 ≤ ws.length) (hw : w ∈ ws) :
    (∀ s : DbState, ∀ q e, e ∈ get_user_wins s q ↔
      e ∈ s.draws ∧ e.winner_qq = some q) ∧
    ∃ d', findDraw st' i = some d' ∧
      d'.winner_qq = some (winnersJoin ws) ∧ d' ∉ get_user_wins st' w := by
  have part1 : ∀ s : DbState, ∀ q e, e ∈ get_user_wins s q ↔
      e ∈ s.draws ∧ e.winner_qq = some q := by
    intro s q e
    unfold get_user_wins
    rw [mem_sortLe]
    simp [List.mem_filter]
  refine ⟨part1, ?_⟩
  obtain ⟨d, hfd, hstat, hst⟩ := draw_lucky_winner_ok_inv shuffle st i ws st' hsucc
  refine ⟨{ d with status := 1, winner_qq := some (winnersJoin ws) }, ?_, rfl, ?_⟩
  · rw [hst]
    rw [findDraw_update st i
      (fun e => { e with status := 1, winner_qq := some (winnersJoin ws) })
      (fun e => rfl) i]
    simp [hfd]
  · intro hmem
    have h2 := ((part1 st' w _).mp hmem).2
    have h3 : winnersJoin ws = w := Option.some.inj h2
    exact winnersJoin_ne_mem ws w hw hlen h3

/-- Witness for C9: the draw executed with winners `["a", "b"]` (stored
as `"a, b"`) is not in `get_user_wins` of `"a"`. -/
theorem get_user_wins_exact_match_witness :
    c9DrawAfter ∉ get_user_wins c9StateAfter "a" := by
  obtain ⟨-, d', hd', -, hnot⟩ := get_user_wins_exact_match (fun l => l) c9State
    c9StateAfter 1 ["a", "b"] "a" (by decide) (by decide) (by decide)
  have hcalc : findDraw c9StateAfter 1 = some c9DrawAfter := by decide
  rw [hd'] at hcalc
  exact (Option.some.inj hcalc) ▸ hnot
